import Mathlib

/-!
Verification of the request pre-load / version-negotiation pipeline of the
sdc-cloudapi gateway, shallowly embedded from `lib/packages.js` and
`lib/datasets.js`.

Conventions of the embedding:
* JavaScript values that may be `undefined` are modelled with `Option`;
  JS truthiness of a string-valued field (`undefined` and `""` are falsy)
  is `truthyS`.
* The continuation-passing middleware is modelled as pure functions from the
  request (plus the responses the external backends would deliver) to the
  post-state of the request: the selected entity, the candidate list and the
  error handed to `next`.
* Semantic versions are modelled in parsed form (`SemVer`), with the
  comparison algorithm of the `semver` npm package (numeric triple
  lexicographically, then prerelease identifiers: a version with prerelease
  identifiers sorts below the same version without; identifiers compare
  numerically when both numeric, numeric below alphanumeric, alphanumeric
  by character code; a longer identifier list wins over a proper prefix).
-/

namespace Cloudapi

/-! ## Semantic versions (`semver` npm package, as used by both modules) -/

/-- One dot-separated prerelease identifier: numeric, or alphanumeric. -/
inductive PreId where
  | num (n : Nat)
  | str (s : String)
deriving DecidableEq, Repr

/-- A parsed (valid) semantic version. Build metadata is ignored by the
`semver` comparison functions, so it is not modelled. -/
structure SemVer where
  major : Nat
  minor : Nat
  patch : Nat
  pre : List PreId := []
deriving DecidableEq, Repr

/-- Character codes of a string (prerelease identifiers are ASCII, where
JS code-unit order and codepoint order agree). -/
def strCodes (s : String) : List Nat :=
  s.toList.map Char.toNat

/-- Lexicographic comparison of lists by an element comparator. -/
def cmpLexList (cmp : α → α → Ordering) : List α → List α → Ordering
  | [], [] => .eq
  | [], _ :: _ => .lt
  | _ :: _, [] => .gt
  | a :: as, b :: bs => (cmp a b).then (cmpLexList cmp as bs)

/-- The `semver` function `compareIdentifiers`: numerically when both numeric, numeric
identifiers below alphanumeric ones, otherwise string order. -/
def cmpId : PreId → PreId → Ordering
  | .num a, .num b => compare a b
  | .num _, .str _ => .lt
  | .str _, .num _ => .gt
  | .str a, .str b => cmpLexList compare (strCodes a) (strCodes b)

/-- The `semver` prerelease comparison: a version without prerelease identifiers
is greater than one with them; otherwise identifier-wise, a longer list
beating a proper prefix. -/
def cmpPre : List PreId → List PreId → Ordering
  | [], [] => .eq
  | [], _ :: _ => .gt
  | _ :: _, [] => .lt
  | a :: as, b :: bs => (cmpId a b).then (cmpLexList cmpId as bs)

/-- Function `semver.compare`: main triple lexicographically, then prerelease. -/
def semverCompare : SemVer → SemVer → Ordering :=
  compareLex (compareOn (·.major)) <| compareLex (compareOn (·.minor)) <|
    compareLex (compareOn (·.patch)) (Ordering.byKey (·.pre) cmpPre)

/-- Function `semver.gte`. -/
def semverGte (a b : SemVer) : Bool :=
  match semverCompare a b with
  | .lt => false
  | _ => true

open Batteries in
instance cmpLexList.instTransCmp (cmp : α → α → Ordering) [TransCmp cmp] :
    TransCmp (cmpLexList cmp) where
  symm x y := by
    induction x generalizing y with
    | nil => cases y <;> rfl
    | cons a as ih =>
      cases y with
      | nil => rfl
      | cons b bs =>
        show (Ordering.then _ _).swap = Ordering.then _ _
        rw [Ordering.swap_then, OrientedCmp.symm a b, ih]
  le_trans {x y z} h₁ h₂ := by
    induction x generalizing y z with
    | nil =>
      cases z with
      | nil => simp [cmpLexList]
      | cons c cs => simp [cmpLexList]
    | cons a as ih =>
      cases y with
      | nil => simp [cmpLexList] at h₁
      | cons b bs =>
        cases z with
        | nil => simp [cmpLexList] at h₂
        | cons c cs =>
          simp only [cmpLexList, ne_eq, Ordering.then_eq_gt, not_or, not_and] at h₁ h₂ ⊢
          constructor
          · intro hac
            rcases h : cmp a b with hab | hab | hab
            · exact absurd (TransCmp.lt_le_trans h (fun hbc => (h₂.1 hbc).elim)) (by simp [hac])
            · exact absurd ((TransCmp.cmp_congr_left h).symm.trans hac) (by
                intro hbc; exact h₂.1 hbc)
            · exact h₁.1 h
          · intro hac
            rcases h : cmp a b with hab | hab | hab
            · exact absurd (TransCmp.lt_le_trans h (fun hbc => (h₂.1 hbc).elim))
                (by rw [hac]; simp)
            · have hbc : cmp b c = .eq := (TransCmp.cmp_congr_left h).symm.trans hac
              exact ih (h₁.2 h) (h₂.2 hbc)
            · exact (h₁.1 h).elim

open Batteries in
instance cmpId.instTransCmp : TransCmp cmpId where
  symm x y := by
    cases x <;> cases y <;>
      simp only [cmpId, Ordering.swap] <;>
      first
      | rfl
      | exact OrientedCmp.symm ..
  le_trans {x y z} h₁ h₂ := by
    cases x <;> cases y <;> cases z <;>
      simp_all only [cmpId, ne_eq] <;>
      first
      | simp
      | exact TransCmp.le_trans h₁ h₂
      | simp_all

open Batteries in
instance cmpPre.instTransCmp : TransCmp cmpPre where
  symm x y := by
    cases x with
    | nil => cases y <;> rfl
    | cons a as =>
      cases y with
      | nil => rfl
      | cons b bs =>
        exact @OrientedCmp.symm _ (cmpLexList cmpId) _ (a :: as) (b :: bs)
  le_trans {x y z} h₁ h₂ := by
    cases x with
    | nil =>
      cases y with
      | nil => exact h₂
      | cons b bs => exact absurd rfl h₁
    | cons a as =>
      cases z with
      | nil => simp [cmpPre]
      | cons c cs =>
        cases y with
        | nil => exact absurd rfl h₂
        | cons b bs =>
          exact @TransCmp.le_trans _ (cmpLexList cmpId) _
            (a :: as) (b :: bs) (c :: cs) h₁ h₂

open Batteries in
instance semverCompare.instTransCmp : TransCmp semverCompare := by
  unfold semverCompare
  infer_instance

/-! ## The "greatest semantic version wins" reduction

Both modules settle ties between candidates with
`list.reduce(function (a, b) { if (semver.gte(valid(a.version),
valid(b.version))) { return a; } else { return b; } })`; JS `reduce` without
an initial value folds from the left starting at the first element. -/

/-- The call `xs.reduce(...)` as used at `lib/packages.js:116`, `lib/packages.js:171`
and `lib/datasets.js:338`, with `ver` projecting the (parsed) version. -/
def reduceBest (ver : α → SemVer) (x : α) (xs : List α) : α :=
  xs.foldl (fun a b => if semverGte (ver a) (ver b) then a else b) x

/-! ## JavaScript value and string helpers -/

/-- JS truthiness of an optional string: `undefined` and `""` are falsy. -/
def truthyS : Option String → Bool
  | none => false
  | some s => s != ""

/-- JS `a || b` on two optional strings. -/
def jsOrS (a b : Option String) : Option String :=
  if truthyS a then a else b

/-- Test that `p` is a leading segment of `l`. -/
def leadsWith : List Char → List Char → Bool
  | [], _ => true
  | _ :: _, [] => false
  | a :: as, b :: bs => a == b && leadsWith as bs

/-- Test that `p` occurs inside `l` (an unanchored regex literal such as `/6\.5/`). -/
def hasSub (p : List Char) : List Char → Bool
  | [] => p.isEmpty
  | c :: cs => leadsWith p (c :: cs) || hasSub p cs

/-- Test that `needle` occurs as a substring of `hay`. -/
def strHasSub (needle hay : String) : Bool :=
  hasSub needle.toList hay.toList

/-- Test that `s` ends with `tail` (a `$`-anchored regex such as `/\/packages$/`). -/
def strEndsIn (tail s : String) : Bool :=
  leadsWith tail.toList.reverse s.toList.reverse

/-- Lowercase hex digit, as accepted by the `UUID_RE` character class
`[a-f0-9]` (`lib/packages.js:22`, `lib/datasets.js:32`). -/
def isHexLower (c : Char) : Bool :=
  decide ((97 ≤ c.toNat ∧ c.toNat ≤ 102) ∨ (48 ≤ c.toNat ∧ c.toNat ≤ 57))

/-- Walk the characters of a candidate UUID, position by position: dashes at
offsets 8, 13, 18 and 23, lowercase hex everywhere else, length exactly 36. -/
def isUuidChars : List Char → Nat → Bool
  | [], n => n == 36
  | c :: cs, n =>
    decide (n < 36) &&
    (if n == 8 || n == 13 || n == 18 || n == 23 then c == '-' else isHexLower c) &&
    isUuidChars cs (n + 1)

/-- The test `UUID_RE.test(s)`: the anchored UUID shape used by both modules. -/
def isUuid (s : String) : Bool :=
  isUuidChars s.toList 0

/-- JS `String.prototype.toLowerCase` restricted to ASCII, all that HTTP method
names use. -/
def jsToLower (s : String) : String :=
  (s.toList.map fun c =>
    if decide (65 ≤ c.toNat ∧ c.toNat ≤ 90) then Char.ofNat (c.toNat + 32)
    else c).asString

/-- JS `String.prototype.toUpperCase` restricted to ASCII. -/
def jsToUpper (s : String) : String :=
  (s.toList.map fun c =>
    if decide (97 ≤ c.toNat ∧ c.toNat ≤ 122) then Char.ofNat (c.toNat - 32)
    else c).asString

/-- After the account segment, scan up to the next `/` and require it to be
followed by `datasets`. -/
def depDatasetsTail : List Char → Bool
  | [] => false
  | c :: cs => if c == '/' then leadsWith "datasets".toList cs else depDatasetsTail cs

/-- The test `/^\/[^\/]+\/datasets/.test(url)` (`lib/datasets.js:143`): a leading `/`,
a nonempty account segment without `/`, then `/datasets`. -/
def isDeprecatedEndpoint (url : String) : Bool :=
  match url.toList with
  | '/' :: c :: cs => if c == '/' then false else depDatasetsTail cs
  | _ => false

/-! ## `lib/packages.js`: data model -/

/-- A raw package entity as returned by PAPI, with the fields the module
reads. Optional fields model properties that may be `undefined`; `version`
is kept in parsed form (see the header comment). -/
structure RawPackage where
  uuid : String
  name : String
  version : SemVer
  max_physical_memory : Nat
  quota : Nat
  max_swap : Nat
  vcpus : Option Nat := none
  default : Option Bool := none
  description : Option String := none
  group : Option String := none
deriving DecidableEq, Repr

/-- The translated (public) package representation built by `translate`
(`lib/packages.js:28-55`); `none` models an absent property. -/
structure PkgView where
  name : String
  memory : Nat
  disk : Nat
  swap : Nat
  vcpus : Nat
  default : Bool
  id : Option String := none
  version : Option SemVer := none
  description : Option String := none
  group : Option String := none
deriving DecidableEq, Repr

/-- Function `translate(req, pkg)` (`lib/packages.js:28-55`). `reqVersion` is
`req.getVersion()`; the legacy check is the regex `/6\.5/` on it.
`pkg.vcpus || 0` and `pkg['default'] || false` map falsy (absent, `0`,
`false`) values to the stated constants. -/
def translatePkg (reqVersion : String) (pkg : RawPackage) : PkgView :=
  let p : PkgView :=
    { name := pkg.name
      memory := pkg.max_physical_memory
      disk := pkg.quota
      swap := pkg.max_swap
      vcpus := pkg.vcpus.getD 0
      default := pkg.default.getD false }
  if strHasSub "6.5" reqVersion then p
  else
    { p with
      id := some pkg.uuid
      version := some pkg.version
      description := if truthyS pkg.description then pkg.description else none
      group := if truthyS pkg.group then pkg.group else none }

/-- The filter object passed to `papi.list`; `none` marks a key that was not
set on `opts`. -/
structure PapiQuery where
  name : Option String := none
  max_physical_memory : Option String := none
  quota : Option String := none
  max_swap : Option String := none
  version : Option String := none
  vcpus : Option String := none
  group : Option String := none
  active : Option Bool := none
  owner_uuids : Option String := none
deriving DecidableEq, Repr

/-- Errors handed to `next`: a backend (PAPI/IMGAPI) error propagated as-is,
or a `ResourceNotFoundError` raised by this code. -/
inductive Err where
  | backend (msg : String)
  | notFound (what : String)
deriving DecidableEq, Repr

/-- The PAPI client, as the response each call of the module would receive:
`get(uuid, {owner_uuids})` and `list(filter, {})`. -/
structure Papi where
  get : String → String → Except Err RawPackage
  list : PapiQuery → Except Err (List RawPackage)

/-- The request fields `loadPackages` consults. -/
structure PkgReq where
  url : String
  pathname : String
  method : String
  version : String
  paramPackage : Option String := none
  paramAction : Option String := none
  accountUuid : String
deriving DecidableEq, Repr

/-- Post-state of `loadPackages`: `req.pkg` (`false`/unset modelled as
`none`), `req.packages`, and the error handed to `next`, if any. -/
structure LoadPkgOutcome where
  pkg : Option RawPackage
  packages : Option (List RawPackage)
  nextErr : Option Err
deriving DecidableEq, Repr

/-- Middleware `loadPackages` (`lib/packages.js:62-184`), with the PAPI responses
supplied by `papi`. -/
def loadPackages (req : PkgReq) (papi : Papi) : LoadPkgOutcome :=
  if req.url == "/--ping" then ⟨none, none, none⟩
  else if strEndsIn "/packages" req.pathname then ⟨none, none, none⟩
  else if truthyS req.paramPackage then
    -- `pkgName` is truthy here, so the default is never taken.
    let pkgName := req.paramPackage.getD ""
    if isUuid pkgName then
      match papi.get pkgName req.accountUuid with
      | .error e => ⟨none, none, some e⟩
      | .ok pkg => ⟨some pkg, none, none⟩
    else
      match papi.list { name := some pkgName, owner_uuids := some req.accountUuid,
                        active := some true } with
      | .error e => ⟨none, none, some e⟩
      | .ok [] => ⟨none, none, none⟩
      | .ok (x :: xs) => ⟨some (reduceBest (·.version) x xs), none, none⟩
  else if strEndsIn "/machines" req.pathname && jsToLower req.method != "post" then
    match papi.list {} with
    | .error e => ⟨none, none, some e⟩
    | .ok pkgs => ⟨none, some pkgs, none⟩
  else if jsToLower req.method != "post" || req.paramAction != some "resize" then
    ⟨none, none, none⟩
  else
    match papi.list { owner_uuids := some req.accountUuid, active := some true } with
    | .error e => ⟨none, none, some e⟩
    | .ok pkgs =>
      match pkgs.filter (fun p => p.default == some true) with
      | [] => ⟨none, some pkgs, none⟩
      | x :: xs => ⟨some (reduceBest (·.version) x xs), some pkgs, none⟩

/-! ## `lib/packages.js`: the `list` endpoint and its cache -/

/-- The query parameters of a package list request. `extra` holds any
unrecognized parameters; `list` never reads them. -/
structure PkgListParams where
  name : Option String := none
  memory : Option String := none
  disk : Option String := none
  swap : Option String := none
  version : Option String := none
  vcpus : Option String := none
  group : Option String := none
  extra : List (String × String) := []
deriving DecidableEq, Repr

/-- The request fields `list` consults. -/
structure PkgListReq where
  version : String
  accountUuid : String
  params : PkgListParams
deriving DecidableEq, Repr

/-- The filter assembled at `lib/packages.js:192-221` from the recognized,
truthy parameters, before `active` and `owner_uuids` are added. -/
def pkgListOpts (params : PkgListParams) : PapiQuery :=
  { name := if truthyS params.name then params.name else none
    max_physical_memory := if truthyS params.memory then params.memory else none
    quota := if truthyS params.disk then params.disk else none
    max_swap := if truthyS params.swap then params.swap else none
    version := if truthyS params.version then params.version else none
    vcpus := if truthyS params.vcpus then params.vcpus else none
    group := if truthyS params.group then params.group else none }

/-- The check `Object.keys(opts).length === 0` (`lib/packages.js:225`). -/
def canUseCache (params : PkgListParams) : Bool :=
  let o := pkgListOpts params
  o.name == none && o.max_physical_memory == none && o.quota == none &&
    o.max_swap == none && o.version == none && o.vcpus == none && o.group == none

/-- At least one of the seven recognized narrowing parameters is present
(truthy) on the request. -/
def narrowingPresent (params : PkgListParams) : Bool :=
  truthyS params.name || truthyS params.memory || truthyS params.disk ||
    truthyS params.swap || truthyS params.version || truthyS params.vcpus ||
    truthyS params.group

/-- What the cache store holds for this tenant's key: a cached candidate
list, nothing, or a cache-layer failure. -/
inductive CacheStoreView where
  | hit (pkgs : List RawPackage)
  | miss
  | storeErr (msg : String)
deriving DecidableEq, Repr

/-- Modelled from the spec: `lib/cache.js` is not among the sources under
verification (only its caller `lib/packages.js` is). Per spec §4.3,
`cache.get(req, key, canUseCache, cb)` consults the store only when the
eligibility flag is set and otherwise behaves as a miss without touching
the store. The second component records whether the store was read. -/
def cacheGet (store : CacheStoreView) (canUse : Bool) : CacheStoreView × Bool :=
  if canUse then (store, true) else (.miss, false)

instance [DecidableEq ε] [DecidableEq α] : DecidableEq (Except ε α) := fun x y =>
  match x, y with
  | .error a, .error b =>
    if h : a = b then .isTrue (by rw [h]) else .isFalse (by simp [h])
  | .ok a, .ok b =>
    if h : a = b then .isTrue (by rw [h]) else .isFalse (by simp [h])
  | .error _, .ok _ => .isFalse (by simp)
  | .ok _, .error _ => .isFalse (by simp)

/-- Observable outcome of one `list` call: the response (or error) handed
on, whether the cache store was read, the value written through `cache.set`
(if any), and the filter sent to PAPI (if the backend was queried). -/
structure PkgListOutcome where
  response : Except Err (List PkgView)
  cacheRead : Bool
  cacheWrite : Option (List RawPackage)
  backendQuery : Option PapiQuery
deriving DecidableEq, Repr

/-- Handler `list` (`lib/packages.js:187-262`), given the cache store content for
this tenant's key and the PAPI client. Role-tag response-header decoration
(`resources.getRoleTags`) only writes headers and is not modelled. -/
def pkgList (req : PkgListReq) (store : CacheStoreView) (papi : Papi) :
    PkgListOutcome :=
  let canUse := canUseCache req.params
  let opts := { pkgListOpts req.params with
                active := some true, owner_uuids := some req.accountUuid }
  match cacheGet store canUse with
  | (.hit cached, r) =>
    { response := .ok (cached.map (translatePkg req.version))
      cacheRead := r, cacheWrite := none, backendQuery := none }
  | (.miss, r) | (.storeErr _, r) =>
    match papi.list opts with
    | .error e =>
      { response := .error e, cacheRead := r, cacheWrite := none
        backendQuery := some opts }
    | .ok pkgs =>
      { response := .ok (pkgs.map (translatePkg req.version))
        cacheRead := r
        cacheWrite := if canUse then some pkgs else none
        backendQuery := some opts }

/-! ## `lib/datasets.js`: data model -/

/-- JS truthiness of an optional number: `undefined` and `0` are falsy. -/
def truthyN : Option Nat → Bool
  | none => false
  | some n => n != 0

/-- The `requirements` sub-object of a raw image. -/
structure ImgRequirements where
  password : Option String := none
  max_ram : Option Nat := none
  min_ram : Option Nat := none
deriving DecidableEq, Repr

/-- The `error` sub-object of a raw IMGAPI image, and also the translated
error shape exposed on cloudapi image objects. -/
structure ImgError where
  code : String
  message : String
deriving DecidableEq, Repr

/-- A raw image/dataset entity as returned by IMGAPI, with the fields the
module reads; `none` models an absent property. -/
structure RawImage where
  uuid : String
  name : String
  version : SemVer
  os : String
  type : Option String := none
  description : Option String := none
  requirements : Option ImgRequirements := none
  urn : Option String := none
  published_at : Option String := none
  state : Option String := none
  tags : Option String := none
  homepage : Option String := none
  owner : Option String := none
  public : Option Bool := none
  eula : Option String := none
  acl : Option String := none
  origin : Option String := none
  error : Option ImgError := none
deriving DecidableEq, Repr

/-- Function `errorObjFromImgapiImage` (`lib/datasets.js:57-107`). Its only call site
reads `image.error` after checking the property is present, so the model
takes that error object directly. -/
def errorObjFromImgapiImage (e : ImgError) : ImgError :=
  match e.code with
  | "PrepareImageDidNotRun" => { code := e.code, message := e.message }
  | "VmHasNoOrigin" => { code := e.code, message := e.message }
  | "NotSupported" => { code := e.code, message := e.message }
  | _ =>
    { code := "InternalError"
      message := "an unexpected error occurred (Contact support for assistance.)" }

/-- The translated `requirements` object. -/
structure ReqsView where
  password : Option String := none
  max_memory : Option Nat := none
  max_ram : Option Nat := none
  min_memory : Option Nat := none
  min_ram : Option Nat := none
deriving DecidableEq, Repr

/-- The translated (public) image/dataset representation built by
`translate` (`lib/datasets.js:110-204`). -/
structure DsView where
  id : String
  name : String
  version : SemVer
  os : String
  requirements : ReqsView := {}
  type : Option String := none
  description : Option String := none
  urn : Option String := none
  default : Option Bool := none
  created : Option String := none
  tags : Option String := none
  homepage : Option String := none
  published_at : Option String := none
  owner : Option String := none
  public : Option Bool := none
  state : Option String := none
  eula : Option String := none
  acl : Option String := none
  origin : Option String := none
  error : Option ImgError := none
deriving DecidableEq, Repr

/-- The request fields the datasets module consults. The three
`semver.satisfies` checks of fixed versions (`6.5.0`, `7.0.0`, `7.1.0`)
against the request's `X-Api-Version` range are abstracted as the Booleans
`sat65`/`sat70`/`sat71`: the range grammar of the `semver` package is
outside the scope of the claims, and no claim depends on how those Booleans
are computed from the version string. `bleedingImgMgmt` models
`req._bleedingEdgeFeatures && req._bleedingEdgeFeatures.img_mgmt`;
`whitelist` the keys of `req._bleedingEdgeLoginWhitelist` when that object
is present. -/
structure DsReq where
  url : String
  method : String
  version : String
  paramDataset : Option String := none
  paramImage : Option String := none
  paramName : Option String := none
  paramOs : Option String := none
  paramVersion : Option String := none
  paramPublic : Option String := none
  paramState : Option String := none
  paramOwner : Option String := none
  paramType : Option String := none
  accountUuid : String
  accountLogin : String
  dataset : Option RawImage := none
  sat65 : Bool := false
  sat70 : Bool := false
  sat71 : Bool := false
  bleedingImgMgmt : Bool := false
  whitelist : Option (List String) := none
deriving DecidableEq, Repr

/-- The `requirements` sub-object built at `lib/datasets.js:129-139`. -/
def translateReqs : Option ImgRequirements → ReqsView
  | none => {}
  | some r =>
    { password := r.password
      max_memory := if truthyN r.max_ram then r.max_ram else none
      max_ram := if truthyN r.max_ram then r.max_ram else none
      min_memory := if truthyN r.min_ram then r.min_ram else none
      min_ram := if truthyN r.min_ram then r.min_ram else none }

/-- The `7.1`-or-bleeding-edge field gate of `translate`
(`lib/datasets.js:171-176`), already excluding deprecated endpoints. -/
def fields71 (req : DsReq) : Bool :=
  !isDeprecatedEndpoint req.url &&
    (req.sat71 || (req.bleedingImgMgmt &&
      (match req.whitelist with
       | some wl => wl.contains req.accountLogin || wl.contains "*"
       | none => false)))

/-- The `7.0` field gate of `translate` (`lib/datasets.js:164-168`). -/
def fields70 (req : DsReq) : Bool :=
  !isDeprecatedEndpoint req.url && req.sat70

/-- Function `translate(req, dataset)` (`lib/datasets.js:110-204`). The source builds
`obj` by a sequence of conditional property assignments, each property being
assigned at most once; the model states each property's final value with
its guarding condition directly. -/
def translateDs (req : DsReq) (ds : RawImage) : DsView :=
  let dep := isDeprecatedEndpoint req.url
  let legacy65 := req.version != "*" && req.sat65
  let f70 := fields70 req
  let f71 := fields71 req
  { id := ds.uuid
    name := ds.name
    version := ds.version
    os := ds.os
    type := if truthyS ds.type then
        some (if ds.type == some "zvol" then "virtualmachine" else "smartmachine")
      else none
    description := if truthyS ds.description then ds.description else none
    requirements := translateReqs ds.requirements
    urn := if truthyS ds.urn && dep then ds.urn else none
    default := if legacy65 then
        some (match req.dataset with
          | some cur => cur.uuid == ds.uuid
          | none => false)
      else none
    created := if legacy65 && truthyS ds.published_at then ds.published_at else none
    tags := ds.tags
    homepage := if (f70 || f71) && ds.homepage.isSome then ds.homepage else none
    published_at := if (f70 || f71) && ds.published_at.isSome then ds.published_at
      else none
    owner := if f71 && ds.owner.isSome then ds.owner else none
    public := if f71 && ds.public.isSome then ds.public else none
    state := if f71 && ds.state.isSome then ds.state else none
    eula := if f71 && ds.eula.isSome then ds.eula else none
    acl := if f71 && ds.acl.isSome then ds.acl else none
    origin := if f71 && ds.origin.isSome then ds.origin else none
    error := if f71 then ds.error.map errorObjFromImgapiImage else none }

/-- Function `curImg65` (`lib/datasets.js:318-348`): with an identifier parameter,
filter the candidates matching it against `uuid`, `urn` or `name`; without
one, fall back to the candidates named `smartos`; then pick the greatest
semantic version, leaving the selection unset when nothing matched. -/
def curImg65 (paramDataset paramImage : Option String) (datasets : List RawImage) :
    Option RawImage :=
  let ds :=
    if truthyS (jsOrS paramDataset paramImage) then
      let _d := (jsOrS paramDataset paramImage).getD ""
      datasets.filter fun d => _d == d.uuid || some _d == d.urn || _d == d.name
    else
      datasets.filter fun d => d.name == "smartos"
  match ds with
  | [] => none
  | x :: xs => some (reduceBest (·.version) x xs)

/-- The `for` loop of `curImg70` (`lib/datasets.js:354-361`): first entry
whose `uuid` or `urn` equals the identifier, stopping there. -/
def firstMatch70 (imageUUID : String) : List RawImage → Option RawImage
  | [] => none
  | d :: ds =>
    if imageUUID == d.uuid || some imageUUID == d.urn then some d
    else firstMatch70 imageUUID ds

/-- Function `curImg70` (`lib/datasets.js:350-364`). -/
def curImg70 (paramImage paramDataset : Option String) (datasets : List RawImage) :
    Option RawImage :=
  if truthyS (jsOrS paramImage paramDataset) then
    firstMatch70 ((jsOrS paramImage paramDataset).getD "") datasets
  else none

/-- The filter object passed to `imgapi.listImages`. -/
structure ImgQuery where
  account : Option String := none
  name : Option String := none
  os : Option String := none
  version : Option String := none
  public : Option String := none
  state : Option String := none
  owner : Option String := none
  type : Option String := none
deriving DecidableEq, Repr

/-- The IMGAPI client, as the response each call would receive. -/
structure Imgapi where
  getImage : Option String → Except Err RawImage
  listImages : ImgQuery → Except Err (List RawImage)

/-- The filter built by `loadImages` (`lib/datasets.js:224-258`). -/
def loadImagesOpts (req : DsReq) : ImgQuery :=
  let base : ImgQuery := { account := some req.accountUuid }
  if !(strHasSub "/machines" req.url) &&
     ((strHasSub "/images" req.url || strHasSub "/datasets" req.url) &&
      !(strHasSub "/images/" req.url || strHasSub "/datasets/" req.url)) then
    { base with
      name := if truthyS req.paramName then req.paramName else none
      os := if truthyS req.paramOs then req.paramOs else none
      version := if truthyS req.paramVersion then req.paramVersion else none
      public := if truthyS req.paramPublic then req.paramPublic else none
      state := if truthyS req.paramState then req.paramState else none
      owner := if truthyS req.paramOwner then req.paramOwner else none
      type := match req.paramType with
        | some "smartmachine" => some "zone-dataset"
        | some "virtualmachine" => some "zvol"
        | _ => none }
  else base

/-- Post-state of the single-image fetch path: `req.dataset` and the error
handed to `next`, if any. -/
structure GetImgOutcome where
  dataset : Option RawImage
  nextErr : Option Err
deriving DecidableEq, Repr

/-- Function `loadImage` (`lib/datasets.js:207-221`): fetch by
`req.params.dataset || req.params.image`, deliberately without an account
filter. -/
def loadImage (req : DsReq) (api : Imgapi) : Except Err RawImage :=
  api.getImage (jsOrS req.paramDataset req.paramImage)

/-- Function `getImage` (`lib/datasets.js:295-315`). -/
def getImage (req : DsReq) (api : Imgapi) : GetImgOutcome :=
  match req.dataset with
  | some d => ⟨some d, none⟩
  | none =>
    match loadImage req api with
    | .error e => ⟨none, some e⟩
    | .ok img =>
      if img.state == some "destroyed" then ⟨none, some (.notFound img.uuid)⟩
      else ⟨some img, none⟩

/-- Post-state of `load`: `req.dataset`, `req.datasets` and the error handed
to `next`, if any. -/
structure LoadDsOutcome where
  dataset : Option RawImage
  datasets : Option (List RawImage)
  nextErr : Option Err
deriving DecidableEq, Repr

/-- Middleware `load` (`lib/datasets.js:371-422`), with the IMGAPI responses supplied
by `api`. -/
def load (req : DsReq) (api : Imgapi) : LoadDsOutcome :=
  if req.url == "/--ping" then ⟨req.dataset, none, none⟩
  else
    -- `req.dataset = false;` (`lib/datasets.js:378`)
    let req := { req with dataset := none }
    let imageUUID := jsOrS req.paramImage req.paramDataset
    if truthyS imageUUID && isUuid (imageUUID.getD "") then
      let g := getImage req api
      ⟨g.dataset, none, g.nextErr⟩
    else if strHasSub "/machines/" req.url then ⟨none, none, none⟩
    else if !(strHasSub "/datasets" req.url || strHasSub "/machines" req.url ||
              strHasSub "/images" req.url) then ⟨none, none, none⟩
    else
      match api.listImages (loadImagesOpts req) with
      | .error e => ⟨none, none, some e⟩
      | .ok ds =>
        -- `loadDisabledImages` (`lib/datasets.js:273-293`)
        let disResp :=
          if strHasSub "/machines" req.url && !(strHasSub "/machines/" req.url) &&
             jsToUpper req.method != "POST" then
            api.listImages { state := some "disabled" }
          else .ok []
        match disResp with
        | .error e => ⟨none, some ds, some e⟩
        | .ok imgs =>
          let all := ds ++ imgs
          let sel := if strHasSub "6.5" req.version then
              curImg65 req.paramDataset req.paramImage all
            else curImg70 req.paramImage req.paramDataset all
          ⟨sel, some all, none⟩

/-- Handler `list` (`lib/datasets.js:424-442`), over the preloaded `req.datasets`. -/
def listDatasets (req : DsReq) (datasets : List RawImage) : List DsView :=
  let ds := datasets.map (translateDs req)
  if strHasSub "6.5" req.version then ds.filter (fun d => d.urn.isSome) else ds

/-! ## Concrete fixtures used by witnesses -/

/-- A package fixture carrying every optional field. -/
def pkgFull : RawPackage :=
  { uuid := "11111111-2222-3333-4444-555555555555", name := "small"
    version := ⟨1, 0, 0, []⟩, max_physical_memory := 128, quota := 10
    max_swap := 256, vcpus := some 2, default := some true
    description := some "tiny", group := some "standard" }

/-- A second package fixture, same name, greater version. -/
def pkgFull2 : RawPackage :=
  { pkgFull with
    uuid := "11111111-2222-3333-4444-555555555556"
    version := ⟨1, 1, 0, []⟩ }

/-- An image fixture with a `urn`. -/
def imgA : RawImage :=
  { uuid := "aaaaaaaa-bbbb-cccc-dddd-eeeeeeeeee01", name := "smartos"
    version := ⟨1, 0, 0, []⟩, os := "smartos", urn := some "sdc:sdc:smartos:1.0.0"
    state := some "active" }

/-- A second image fixture, same name/urn-less, greater version. -/
def imgB : RawImage :=
  { uuid := "aaaaaaaa-bbbb-cccc-dddd-eeeeeeeeee02", name := "smartos"
    version := ⟨2, 0, 0, []⟩, os := "smartos", state := some "active" }

/-- A PAPI stub whose list call always delivers the two package fixtures. -/
def papiW : Papi :=
  { get := fun _ _ => .ok pkgFull
    list := fun _ => .ok [pkgFull, pkgFull2] }

/-- An IMGAPI stub delivering a disabled image by identifier. -/
def imgapiDisabled : Imgapi :=
  { getImage := fun _ => .ok { imgA with state := some "disabled" }
    listImages := fun _ => .ok [imgA, imgB] }

/-- An IMGAPI stub delivering a destroyed image by identifier. -/
def imgapiDestroyed : Imgapi :=
  { getImage := fun _ => .ok { imgA with state := some "destroyed" }
    listImages := fun _ => .ok [imgA, imgB] }

/-- A by-name package request fixture. -/
def reqByNameW : PkgReq :=
  { url := "/acct/packages/small", pathname := "/acct/packages/small"
    method := "GET", version := "~7.0", paramPackage := some "small"
    accountUuid := "A" }

/-- A single-image request fixture (strict UUID identifier). -/
def reqImgW : DsReq :=
  { url := "/acct/images/aaaaaaaa-bbbb-cccc-dddd-eeeeeeeeee01", method := "GET"
    version := "~7.0", paramDataset := some "aaaaaaaa-bbbb-cccc-dddd-eeeeeeeeee01"
    accountUuid := "A", accountLogin := "me" }

/-- A legacy dataset-listing request fixture. -/
def reqDs65W : DsReq :=
  { url := "/acct/datasets", method := "GET", version := "~6.5"
    accountUuid := "A", accountLogin := "me", sat65 := true }

/-- A package-listing request fixture with no narrowing parameters. -/
def reqListPlainW : PkgListReq :=
  { version := "~7.0", accountUuid := "A", params := {} }

/-- A package-listing request fixture with a `name` filter. -/
def reqListNameW : PkgListReq :=
  { version := "~7.0", accountUuid := "A", params := { name := some "small" } }

/-! ## General lemmas about the version order and the reduction -/

theorem semverGte_iff {a b : SemVer} :
    semverGte a b = true ↔ semverCompare a b ≠ .lt := by
  unfold semverGte
  rcases semverCompare a b with _ | _ | _ <;> simp

theorem semverGte_refl (a : SemVer) : semverGte a a = true := by
  rw [semverGte_iff, @Batteries.OrientedCmp.cmp_refl _ semverCompare a _]
  simp

theorem semverGte_total (a b : SemVer) :
    semverGte a b = true ∨ semverGte b a = true := by
  rw [semverGte_iff, semverGte_iff]
  by_cases h : semverCompare a b = .lt
  · right
    rw [← @Batteries.OrientedCmp.cmp_eq_gt _ semverCompare b a _] at h
    simp [h]
  · exact Or.inl h

theorem semverGte_trans {a b c : SemVer} (h₁ : semverGte a b = true)
    (h₂ : semverGte b c = true) : semverGte a c = true := by
  rw [semverGte_iff] at h₁ h₂ ⊢
  exact Batteries.TransCmp.ge_trans h₁ h₂

theorem reduceBest_mem (ver : α → SemVer) (x : α) (xs : List α) :
    reduceBest ver x xs ∈ x :: xs := by
  induction xs generalizing x with
  | nil => simp [reduceBest]
  | cons b bs ih =>
    have hfold : reduceBest ver x (b :: bs)
        = reduceBest ver (if semverGte (ver x) (ver b) then x else b) bs := by
      simp [reduceBest]
    have step := ih (if semverGte (ver x) (ver b) then x else b)
    rcases List.mem_cons.mp step with h | h
    · rw [hfold, h]
      split <;> simp
    · rw [hfold]
      exact List.mem_cons_of_mem _ (List.mem_cons_of_mem _ h)

theorem reduceBest_ge (ver : α → SemVer) (x : α) (xs : List α) :
    ∀ y ∈ x :: xs, semverGte (ver (reduceBest ver x xs)) (ver y) = true := by
  induction xs generalizing x with
  | nil =>
    intro y hy
    simp only [List.mem_singleton] at hy
    subst hy
    simp [reduceBest, semverGte_refl]
  | cons b bs ih =>
    intro y hy
    have hstep : ∀ z ∈ (if semverGte (ver x) (ver b) then x else b) :: bs,
        semverGte (ver (reduceBest ver x (b :: bs))) (ver z) = true := by
      intro z hz
      simpa only [reduceBest, List.foldl_cons] using
        ih (if semverGte (ver x) (ver b) then x else b) z hz
    have hhead := hstep _ (List.mem_cons_self ..)
    rcases List.mem_cons.mp hy with rfl | hy'
    · -- y = x
      by_cases hxb : semverGte (ver y) (ver b) = true
      · simpa [hxb] using hhead
      · rcases semverGte_total (ver y) (ver b) with h | h
        · exact absurd h hxb
        · exact semverGte_trans (by simpa [hxb] using hhead) h
    · rcases List.mem_cons.mp hy' with rfl | hy''
      · -- y = b
        by_cases hxb : semverGte (ver x) (ver y) = true
        · exact semverGte_trans (by simpa [hxb] using hhead) hxb
        · simpa [hxb] using hhead
      · exact hstep y (List.mem_cons_of_mem _ hy'')

theorem truthyS_some {s : String} (h : s ≠ "") : truthyS (some s) = true := by
  simp [truthyS, h]

theorem ifTruthy_none_iff (o : Option String) :
    ((if truthyS o then o else none) == none) = !truthyS o := by
  cases o with
  | none => simp [truthyS]
  | some s => by_cases h : s = "" <;> simp [truthyS, h]

theorem canUseCache_eq (params : PkgListParams) :
    canUseCache params = !narrowingPresent params := by
  simp only [canUseCache, pkgListOpts, narrowingPresent, ifTruthy_none_iff,
    Bool.not_or]

theorem firstMatch70_eq (p : String) (l : List RawImage) :
    firstMatch70 p l = (l.filter fun d => p == d.uuid || some p == d.urn).head? := by
  induction l with
  | nil => rfl
  | cons d ds ih =>
    by_cases h : (p == d.uuid || some p == d.urn) = true
    · simp [firstMatch70, h]
    · simp [firstMatch70, h, ih]

theorem curImg65_mem {pd pi : Option String} {l : List RawImage} {x : RawImage}
    (h : curImg65 pd pi l = some x) : x ∈ l := by
  simp only [curImg65] at h
  split at h
  · exact absurd h (by simp)
  · next y ys heq =>
    rw [Option.some_inj] at h
    have hm := reduceBest_mem (·.version) y ys
    rw [← heq] at hm
    subst h
    split at hm <;> exact List.mem_of_mem_filter hm

theorem curImg70_mem {pi pd : Option String} {l : List RawImage} {x : RawImage}
    (h : curImg70 pi pd l = some x) : x ∈ l := by
  simp only [curImg70] at h
  split at h
  · rw [firstMatch70_eq] at h
    exact List.mem_of_mem_filter (List.mem_of_mem_head? h)
  · exact absurd h (by simp)

/-! ## Claim theorems -/

/-- C4: translating a raw package under a legacy 6.5 protocol version omits
`id`, `version`, `description` and `group` even when the raw entity carries
them; under a non-6.5 version the result contains `id` and `version`, plus
`description` and `group` whenever the raw entity supplies non-empty values
for them. -/
theorem translatePkg_version_shaping (v : String) (pkg : RawPackage) :
    (strHasSub "6.5" v = true →
       (translatePkg v pkg).id = none ∧ (translatePkg v pkg).version = none ∧
       (translatePkg v pkg).description = none ∧
       (translatePkg v pkg).group = none) ∧
    (strHasSub "6.5" v = false →
       (translatePkg v pkg).id = some pkg.uuid ∧
       (translatePkg v pkg).version = some pkg.version ∧
       (truthyS pkg.description = true →
         (translatePkg v pkg).description = pkg.description) ∧
       (truthyS pkg.group = true →
         (translatePkg v pkg).group = pkg.group)) := by
  constructor
  · intro h
    simp [translatePkg, h]
  · intro h
    exact ⟨by simp [translatePkg, h], by simp [translatePkg, h],
      fun ht => by simp [translatePkg, h, ht],
      fun ht => by simp [translatePkg, h, ht]⟩

/-- Witness for C4 at the 6.5 boundary, on a package carrying all four
fields. -/
theorem translatePkg_version_shaping_witness :
    (translatePkg "~6.5" pkgFull).id = none ∧
    (translatePkg "~6.5" pkgFull).version = none ∧
    (translatePkg "~6.5" pkgFull).description = none ∧
    (translatePkg "~6.5" pkgFull).group = none :=
  (translatePkg_version_shaping "~6.5" pkgFull).1 (by decide)

/-- C8: the image error translation preserves `{code, message}` for the
known codes `PrepareImageDidNotRun`, `VmHasNoOrigin` and `NotSupported`, and
collapses every other code to the fixed generic internal-error pair, leaking
nothing from the raw backend error. -/
theorem errorObj_code_mapping (e : ImgError) :
    ((e.code = "PrepareImageDidNotRun" ∨ e.code = "VmHasNoOrigin" ∨
      e.code = "NotSupported") →
       errorObjFromImgapiImage e = { code := e.code, message := e.message }) ∧
    (e.code ≠ "PrepareImageDidNotRun" → e.code ≠ "VmHasNoOrigin" →
     e.code ≠ "NotSupported" →
       errorObjFromImgapiImage e =
         { code := "InternalError"
           message := "an unexpected error occurred (Contact support for assistance.)" }) := by
  obtain ⟨c, m⟩ := e
  constructor
  · rintro (rfl | rfl | rfl) <;> rfl
  · intro h1 h2 h3
    simp only [errorObjFromImgapiImage]

/-- Witness for C8: an unknown code collapses to the generic pair. -/
theorem errorObj_code_mapping_witness :
    errorObjFromImgapiImage ⟨"SomethingOdd", "secret detail"⟩ =
      { code := "InternalError"
        message := "an unexpected error occurred (Contact support for assistance.)" } :=
  (errorObj_code_mapping ⟨"SomethingOdd", "secret detail"⟩).2
    (by decide) (by decide) (by decide)

/-- C5: given the same candidates and an identifier, the legacy `curImg65`
filters matches against `uuid`, `urn` or `name` and picks the greatest
semantic version among them, while the modern `curImg70` returns the first
candidate in list order whose `uuid` or `urn` equals the identifier — the
name never matches, and the scan stops at the first match regardless of the
versions of later candidates. -/
theorem curImg_legacy_vs_modern (p : String) (hp : p ≠ "") (l : List RawImage) :
    ((l.filter fun d => p == d.uuid || some p == d.urn || p == d.name) = [] →
       curImg65 (some p) none l = none) ∧
    (∀ x xs,
       (l.filter fun d => p == d.uuid || some p == d.urn || p == d.name) = x :: xs →
       ∃ m, curImg65 (some p) none l = some m ∧ m ∈ x :: xs ∧
         ∀ y ∈ x :: xs, semverGte m.version y.version = true) ∧
    curImg70 (some p) none l =
      (l.filter fun d => p == d.uuid || some p == d.urn).head? := by
  have hj : jsOrS (some p) none = some p := by simp [jsOrS, truthyS_some hp]
  refine ⟨?_, ?_, ?_⟩
  · intro hfil
    simp [curImg65, hj, truthyS_some hp, hfil]
  · intro x xs hfil
    refine ⟨reduceBest (·.version) x xs, ?_, reduceBest_mem _ x xs, reduceBest_ge _ x xs⟩
    simp [curImg65, hj, truthyS_some hp, hfil]
  · simp [curImg70, hj, truthyS_some hp, firstMatch70_eq]

/-- Witness for C5: on `[imgA, imgB]` (same name, `imgB` of greater
version), the identifier `imgA`'s urn makes the modern scan stop at `imgA`.
-/
theorem curImg_legacy_vs_modern_witness :
    curImg70 (some "sdc:sdc:smartos:1.0.0") none [imgA, imgB] =
      ([imgA, imgB].filter fun d => "sdc:sdc:smartos:1.0.0" == d.uuid ||
        some "sdc:sdc:smartos:1.0.0" == d.urn).head? :=
  (curImg_legacy_vs_modern "sdc:sdc:smartos:1.0.0" (by decide) [imgA, imgB]).2.2

/-- C10: without an identifier parameter, the legacy `curImg65` falls back
to the candidates named `smartos` and picks the greatest semantic version
among them (staying unset when there is none), while the modern `curImg70`
leaves the selection unset. -/
theorem curImg_no_param (pd pi : Option String) (l : List RawImage)
    (hd : truthyS pd = false) (hi : truthyS pi = false) :
    ((l.filter fun d => d.name == "smartos") = [] → curImg65 pd pi l = none) ∧
    (∀ x xs, (l.filter fun d => d.name == "smartos") = x :: xs →
       ∃ m, curImg65 pd pi l = some m ∧ m ∈ x :: xs ∧
         ∀ y ∈ x :: xs, semverGte m.version y.version = true) ∧
    curImg70 pi pd l = none := by
  have h65 : truthyS (jsOrS pd pi) = false := by simp [jsOrS, hd, hi]
  have h70 : truthyS (jsOrS pi pd) = false := by simp [jsOrS, hd, hi]
  refine ⟨?_, ?_, ?_⟩
  · intro hfil
    simp [curImg65, h65, hfil]
  · intro x xs hfil
    refine ⟨reduceBest (·.version) x xs, ?_, reduceBest_mem _ x xs, reduceBest_ge _ x xs⟩
    simp [curImg65, h65, hfil]
  · simp [curImg70, h70]

/-- Witness for C10: with no identifier, the legacy selection picks the
greater-versioned of the two `smartos` candidates; the modern one stays
unset. -/
theorem curImg_no_param_witness :
    (∃ m, curImg65 none none [imgA, imgB] = some m ∧ m ∈ [imgA, imgB] ∧
       ∀ y ∈ [imgA, imgB], semverGte m.version y.version = true) ∧
    curImg70 none none [imgA, imgB] = none := by
  have h := curImg_no_param none none [imgA, imgB] (by decide) (by decide)
  exact ⟨by simpa using h.2.1 imgA [imgB] (by decide), h.2.2⟩

/-- C2: the package list reads and writes the cache only when none of the
recognized narrowing parameters (name, memory, disk, swap, version, vcpus,
group) is present; with at least one present the operation neither reads nor
writes the cache, and unrecognized parameters do not affect eligibility. -/
theorem pkgList_cache_eligibility (req : PkgListReq) (store : CacheStoreView)
    (papi : Papi) :
    (narrowingPresent req.params = true →
       (pkgList req store papi).cacheRead = false ∧
       (pkgList req store papi).cacheWrite = none) ∧
    (narrowingPresent req.params = false →
       (pkgList req store papi).cacheRead = true) ∧
    (∀ extra,
       pkgList { req with params := { req.params with extra := extra } } store papi =
         pkgList req store papi) := by
  have hcu := canUseCache_eq req.params
  refine ⟨?_, ?_, ?_⟩
  · intro h
    rw [h, Bool.not_true] at hcu
    cases hb : papi.list { pkgListOpts req.params with
        active := some true, owner_uuids := some req.accountUuid } <;>
      simp [pkgList, cacheGet, hcu, hb]
  · intro h
    rw [h, Bool.not_false] at hcu
    cases store <;>
      cases hb : papi.list { pkgListOpts req.params with
          active := some true, owner_uuids := some req.accountUuid } <;>
      simp [pkgList, cacheGet, hcu, hb]
  · intro extra
    rfl

/-- Witness for C2: a `name` filter forces a cache bypass even on a
populated store. -/
theorem pkgList_cache_eligibility_witness :
    (pkgList reqListNameW (.hit [pkgFull]) papiW).cacheRead = false ∧
    (pkgList reqListNameW (.hit [pkgFull]) papiW).cacheWrite = none :=
  (pkgList_cache_eligibility reqListNameW (.hit [pkgFull]) papiW).1 (by decide)

/-- C3: a cache-layer error on read is handled exactly like a miss — same
outcome, the backend is queried — and when the backend succeeds the request
succeeds; the cache error never propagates as the result. -/
theorem pkgList_cacheErr_like_miss (req : PkgListReq) (msg : String) (papi : Papi) :
    pkgList req (.storeErr msg) papi = pkgList req .miss papi ∧
    (pkgList req (.storeErr msg) papi).backendQuery =
      some { pkgListOpts req.params with
             active := some true, owner_uuids := some req.accountUuid } ∧
    (∀ pkgs,
       papi.list { pkgListOpts req.params with
                   active := some true, owner_uuids := some req.accountUuid } = .ok pkgs →
       (pkgList req (.storeErr msg) papi).response =
         .ok (pkgs.map (translatePkg req.version))) := by
  cases hcu : canUseCache req.params <;>
    cases hb : papi.list { pkgListOpts req.params with
        active := some true, owner_uuids := some req.accountUuid } <;>
    simp [pkgList, cacheGet, hcu, hb]

/-- Witness for C3: with a failing cache layer and a healthy backend the
request succeeds with the backend's translated packages. -/
theorem pkgList_cacheErr_like_miss_witness :
    (pkgList reqListPlainW (.storeErr "redis down") papiW).response =
      .ok ([pkgFull, pkgFull2].map (translatePkg reqListPlainW.version)) :=
  (pkgList_cacheErr_like_miss reqListPlainW "redis down" papiW).2.2
    [pkgFull, pkgFull2] (by decide)

/-- C1: resolving a package by name (route parameter present, not
UUID-shaped) selects the entity with the greatest semantic version among the
candidates the backend returned, and with zero matches the selection stays
absent and no error is raised. -/
theorem loadPackages_byName (req : PkgReq) (papi : Papi) (pkgName : String)
    (pkgs : List RawPackage)
    (hping : req.url ≠ "/--ping")
    (hpath : strEndsIn "/packages" req.pathname = false)
    (hname : req.paramPackage = some pkgName) (hne : pkgName ≠ "")
    (huuid : isUuid pkgName = false)
    (hresp : papi.list { name := some pkgName, owner_uuids := some req.accountUuid,
                         active := some true } = .ok pkgs) :
    (pkgs = [] → loadPackages req papi = ⟨none, none, none⟩) ∧
    (∀ x xs, pkgs = x :: xs →
       ∃ m, loadPackages req papi = ⟨some m, none, none⟩ ∧ m ∈ pkgs ∧
         ∀ y ∈ pkgs, semverGte m.version y.version = true) := by
  have h1 : (req.url == "/--ping") = false := beq_eq_false_iff_ne.mpr hping
  constructor
  · intro h
    subst h
    simp [loadPackages, h1, hpath, hname, truthyS_some hne, huuid, hresp]
  · intro x xs h
    subst h
    refine ⟨reduceBest (·.version) x xs, ?_, reduceBest_mem _ x xs,
      reduceBest_ge _ x xs⟩
    simp [loadPackages, h1, hpath, hname, truthyS_some hne, huuid, hresp]

/-- Witness for C1: `small` resolves to the greater-versioned of the two
same-named packages. -/
theorem loadPackages_byName_witness :
    ∃ m, loadPackages reqByNameW papiW = ⟨some m, none, none⟩ ∧
      m ∈ [pkgFull, pkgFull2] ∧
      ∀ y ∈ [pkgFull, pkgFull2], semverGte m.version y.version = true :=
  (loadPackages_byName reqByNameW papiW "small" [pkgFull, pkgFull2]
    (by decide) (by decide) (by decide) (by decide) (by decide) (by decide)).2
    pkgFull [pkgFull2] (by decide)

/-- C6 counterexample: fetching a *disabled* image by strict UUID populates
the selection with the raw entity and raises no error at all — the code only
rejects `destroyed` records (`lib/datasets.js:306`), and the comment at
`lib/datasets.js:209-210` states loading disabled images is intentional.
This contradicts the claim that a disabled backend record yields NotFound
with the selection left unpopulated. -/
theorem getImage_disabled_counterexample :
    (getImage reqImgW imgapiDisabled).dataset =
      some { imgA with state := some "disabled" } ∧
    (getImage reqImgW imgapiDisabled).nextErr = none := by decide

/-- C6 amended: for any image fetched by strict UUID identifier whose
backend record is *destroyed*, the single-entity fetch path yields NotFound
(selection not populated) and never exposes the raw entity; a record in any
other state — including `disabled` — is exposed as the selected dataset. -/
theorem getImage_destroyed_notFound (req : DsReq) (api : Imgapi) (img : RawImage)
    (hcur : req.dataset = none)
    (hresp : loadImage req api = .ok img) :
    (img.state = some "destroyed" →
       getImage req api = ⟨none, some (.notFound img.uuid)⟩) ∧
    (img.state ≠ some "destroyed" → getImage req api = ⟨some img, none⟩) := by
  constructor <;> intro h <;> simp [getImage, hcur, hresp, h]

/-- Witness for the amended C6: a destroyed image yields NotFound. -/
theorem getImage_destroyed_notFound_witness :
    getImage reqImgW imgapiDestroyed = ⟨none, some (.notFound imgA.uuid)⟩ :=
  (getImage_destroyed_notFound reqImgW imgapiDestroyed
    { imgA with state := some "destroyed" } (by decide) (by decide)).1 (by decide)

/-- The `urn` property of a translated dataset: present exactly when the raw
entity has a truthy `urn` and the endpoint is a deprecated `/datasets` one
(`lib/datasets.js:141-146`). -/
theorem translateDs_urn (req : DsReq) (d : RawImage) :
    (translateDs req d).urn =
      if truthyS d.urn && isDeprecatedEndpoint req.url then d.urn else none := rfl

/-- C7: under a legacy 6.5 protocol version the dataset listing consists of
the translated entities that possess the legacy `urn` field — entities
lacking it are dropped after translation — while under a modern version
every translated entity is included, in candidate order. -/
theorem listDatasets_urn_filter (req : DsReq) (datasets : List RawImage) :
    (strHasSub "6.5" req.version = true →
       listDatasets req datasets =
         ((datasets.map (translateDs req)).filter fun d => d.urn.isSome) ∧
       (isDeprecatedEndpoint req.url = true →
          listDatasets req datasets =
            (datasets.filter fun d => truthyS d.urn).map (translateDs req))) ∧
    (strHasSub "6.5" req.version = false →
       listDatasets req datasets = datasets.map (translateDs req)) := by
  constructor
  · intro h65
    constructor
    · simp [listDatasets, h65]
    · intro hdep
      simp only [listDatasets, h65, if_true]
      rw [List.filter_map]
      congr 1
      apply List.filter_congr
      intro d _
      simp only [Function.comp_apply, translateDs_urn, hdep, Bool.and_true]
      cases hurn : d.urn with
      | none => simp [truthyS]
      | some s => by_cases hs : s = "" <;> simp [truthyS, hs]
  · intro h65
    simp [listDatasets, h65]

/-- Witness for C7: on the legacy track, the urn-less `imgB` is dropped and
the urn-carrying `imgA` is kept. -/
theorem listDatasets_urn_filter_witness :
    listDatasets reqDs65W [imgA, imgB] =
      ([imgA, imgB].filter fun d => truthyS d.urn).map (translateDs reqDs65W) :=
  ((listDatasets_urn_filter reqDs65W [imgA, imgB]).1 (by decide)).2 (by decide)

theorem loadPackages_mem (req : PkgReq) (papi : Papi) :
    ∀ l x, (loadPackages req papi).packages = some l →
      (loadPackages req papi).pkg = some x → x ∈ l := by
  intro l x
  simp only [loadPackages]
  split
  · simp
  · split
    · simp
    · split
      · split
        · split <;> simp
        · split <;> simp
      · split
        · split <;> simp
        · split
          · simp
          · split
            · simp
            · split
              · simp
              · rename_i pkgs hpl y ys hf
                intro hl hx
                simp only [Option.some_inj] at hl hx
                subst hl
                subst hx
                have hm := reduceBest_mem (fun p => p.version) y ys
                rw [← hf] at hm
                exact List.mem_of_mem_filter hm

theorem loadPackages_targeted (req : PkgReq) (papi : Papi)
    (h : truthyS req.paramPackage = true) :
    (loadPackages req papi).packages = none := by
  simp only [loadPackages, h, if_true]
  split
  · rfl
  · split
    · rfl
    · split
      · split <;> rfl
      · split <;> rfl

theorem load_mem (req : DsReq) (api : Imgapi) :
    ∀ l x, (load req api).datasets = some l →
      (load req api).dataset = some x → x ∈ l := by
  intro l x
  simp only [load]
  split
  · simp
  · split
    · simp
    · split
      · simp
      · split
        · simp
        · split
          · simp
          · split
            · simp
            · intro hl hx
              simp only [Option.some_inj] at hl hx
              subst hl
              split at hx
              · exact curImg65_mem hx
              · exact curImg70_mem hx

theorem load_targeted (req : DsReq) (api : Imgapi)
    (h : truthyS (jsOrS req.paramImage req.paramDataset) = true)
    (hu : isUuid ((jsOrS req.paramImage req.paramDataset).getD "") = true) :
    (load req api).datasets = none := by
  simp only [load, h, hu, Bool.and_self, if_true]
  split
  · rfl
  · rfl

/-- C9: whenever a preload resolution populates the candidate list
(`req.packages` / `req.datasets`), the selected entity (`req.pkg` /
`req.dataset`), if present, is a member of it; when only a targeted
by-identifier lookup occurred (truthy identifier parameter; for datasets,
UUID-shaped), no candidate list is populated. -/
theorem selection_mem_candidates (preq : PkgReq) (papi : Papi)
    (dreq : DsReq) (api : Imgapi) :
    (∀ l x, (loadPackages preq papi).packages = some l →
       (loadPackages preq papi).pkg = some x → x ∈ l) ∧
    (truthyS preq.paramPackage = true →
       (loadPackages preq papi).packages = none) ∧
    (∀ l x, (load dreq api).datasets = some l →
       (load dreq api).dataset = some x → x ∈ l) ∧
    (truthyS (jsOrS dreq.paramImage dreq.paramDataset) = true →
     isUuid ((jsOrS dreq.paramImage dreq.paramDataset).getD "") = true →
       (load dreq api).datasets = none) :=
  ⟨loadPackages_mem preq papi,
   fun h => loadPackages_targeted preq papi h,
   load_mem dreq api,
   fun h hu => load_targeted dreq api h hu⟩

/-- Witness for C9: on a legacy dataset listing, the selected image is a
member of the loaded candidate list. -/
theorem selection_mem_candidates_witness : imgB ∈ [imgA, imgB] :=
  (selection_mem_candidates reqByNameW papiW reqDs65W imgapiDisabled).2.2.1
    [imgA, imgB] imgB (by decide) (by decide)

end Cloudapi
